import Mathlib

/-!
Verification development for the DiskWiper wipe engine
(src/DiskWiper.cpp).

The C++ source is shallowly embedded below:

* `OverWriteRule`, `WipePolicy`, the rule tables `r_Gutmann`, `r_Fast`,
  `r_Gost`, `r_UsDod5220_22_M`, `r_VSITR` and the catalog `wPolicies`
  mirror the static data at the top of the source file.  Bytes are
  modelled as natural numbers (every byte in the tables is < 256).
* `tileWrites` models the deterministic branch of
  `DiskWiper::FillBlock`, `FillBlock` the whole function acting on the
  engine state, `writeLoop` the two write loops of `DiskWiper::main`,
  `runPass` one iteration of the pass loop and `DiskWiper.main` the
  whole session (after option parsing, which is out of scope).
* The OS collaborators are oracles: `rnd` maps the index of a
  `GetRandomData` call and a byte offset to the byte produced;
  `wfail` tells whether the n-th `ofstream::write` call fails.
  A failed stream stays failed (`failbit` is sticky and the program
  never clears or checks it), and a failed stream performs no device
  I/O on subsequent calls, exactly like `std::ofstream`.
-/

/-- `OverWriteRule` from the source: `data`/`datalen` describe the
repeating byte pattern, `random` selects the random branch.  The C
struct's unused `_reserved` field (always 0) is omitted.  For random
rules `data` is the null pointer, modelled as the empty list. -/
structure OverWriteRule where
  data : List ℕ
  datalen : ℕ
  random : Bool
deriving DecidableEq

instance : Inhabited OverWriteRule := ⟨⟨[], 0, false⟩⟩

/-- `r_Gutmann` — the 35-rule Peter Gutmann table, byte for byte as it
appears in the source (including the `\xDB\x92\x49` bytes of the
sixth-from-last rule, whose source comment reads
`11011011 01101101 10110110`, i.e. DB 6D B6). -/
def r_Gutmann : List OverWriteRule := [
  ⟨[], 0, true⟩,
  ⟨[], 0, true⟩,
  ⟨[], 0, true⟩,
  ⟨[], 0, true⟩,
  ⟨[0x55], 1, false⟩,
  ⟨[0xAA], 1, false⟩,
  ⟨[0x92, 0x49, 0x24], 3, false⟩,
  ⟨[0x49, 0x24, 0x92], 3, false⟩,
  ⟨[0x24, 0x92, 0x49], 3, false⟩,
  ⟨[0x00], 1, false⟩,
  ⟨[0x11], 1, false⟩,
  ⟨[0x22], 1, false⟩,
  ⟨[0x33], 1, false⟩,
  ⟨[0x44], 1, false⟩,
  ⟨[0x55], 1, false⟩,
  ⟨[0x66], 1, false⟩,
  ⟨[0x77], 1, false⟩,
  ⟨[0x88], 1, false⟩,
  ⟨[0x99], 1, false⟩,
  ⟨[0xAA], 1, false⟩,
  ⟨[0xBB], 1, false⟩,
  ⟨[0xCC], 1, false⟩,
  ⟨[0xDD], 1, false⟩,
  ⟨[0xEE], 1, false⟩,
  ⟨[0xFF], 1, false⟩,
  ⟨[0x92, 0x49, 0x24], 3, false⟩,
  ⟨[0x49, 0x24, 0x92], 3, false⟩,
  ⟨[0x24, 0x92, 0x49], 3, false⟩,
  ⟨[0x6D, 0xB6, 0xDB], 3, false⟩,
  ⟨[0xB6, 0xDB, 0x6D], 3, false⟩,
  ⟨[0xDB, 0x92, 0x49], 3, false⟩,
  ⟨[], 0, true⟩,
  ⟨[], 0, true⟩,
  ⟨[], 0, true⟩,
  ⟨[], 0, true⟩]

/-- `r_Fast` — single pass of zeroes. -/
def r_Fast : List OverWriteRule := [⟨[0x00], 1, false⟩]

/-- `r_Gost` — Russian GOST P50739-95: zeroes then random. -/
def r_Gost : List OverWriteRule := [⟨[0x00], 1, false⟩, ⟨[], 0, true⟩]

/-- `r_UsDod5220_22_M` — DoD 5220.22-M: zeroes, ones, random. -/
def r_UsDod5220_22_M : List OverWriteRule :=
  [⟨[0x00], 1, false⟩, ⟨[0xFF], 1, false⟩, ⟨[], 0, true⟩]

/-- `r_VSITR` — German VSITR: six alternating passes then `0xAA`. -/
def r_VSITR : List OverWriteRule :=
  [⟨[0x00], 1, false⟩, ⟨[0xFF], 1, false⟩, ⟨[0x00], 1, false⟩,
   ⟨[0xFF], 1, false⟩, ⟨[0x00], 1, false⟩, ⟨[0xFF], 1, false⟩,
   ⟨[0xAA], 1, false⟩]

/-- `WipePolicy` from the source: a display name, a stored pass count
and the rule table. -/
structure WipePolicy where
  name : String
  passes : ℕ
  rules : List OverWriteRule
deriving DecidableEq

/-- `COUNT_PASSES(x)` — `sizeof(x)/sizeof(OverWriteRule)`, i.e. the
length of the rule array. -/
def COUNT_PASSES (x : List OverWriteRule) : ℕ := x.length

def FastPolicy : WipePolicy := ⟨"Fast", COUNT_PASSES r_Fast, r_Fast⟩

def GostPolicy : WipePolicy :=
  ⟨"Russian GOST P50739-95", COUNT_PASSES r_Gost, r_Gost⟩

def PeterGutmannPolicy : WipePolicy :=
  ⟨"Peter Gutmann", COUNT_PASSES r_Gutmann, r_Gutmann⟩

def DOD522022MPolicy : WipePolicy :=
  ⟨"US DOD 5220.22-M", COUNT_PASSES r_UsDod5220_22_M, r_UsDod5220_22_M⟩

def VsitrPolicy : WipePolicy :=
  ⟨"German VSITR", COUNT_PASSES r_VSITR, r_VSITR⟩

/-- `wPolicies` — the built-in policy catalog, in source order. -/
def wPolicies : List WipePolicy :=
  [FastPolicy, GostPolicy, DOD522022MPolicy, VsitrPolicy, PeterGutmannPolicy]

/-- `DiskWiper::blockSize` — 3*1024*32, a multiple of three so 3-byte
patterns stay aligned. -/
def blockSize : ℕ := 98304

/-!  ## Block Filler  -/

/-- The write list of the deterministic branch of
`DiskWiper::FillBlock`:

    for ( int b = 0; b < blockSize; b+= rules->datalen )
      for ( int dl = 0; dl < rules->datalen; dl++ )
        owBlock[b+dl] = rules->data[dl];

For `0 < L` the values taken by `b` are exactly `i * L` for
`i < (C + L - 1) / L` (the loop stops at the first multiple of `L`
that reaches `C`), so the loop body runs once per pair `(i, dl)` below,
in this order.  Note the inner loop always writes a full `L`-byte tile,
even when the tile starting below `C` ends at or beyond `C`.  (For
`L = 0` the C loop would not terminate; that branch is unreachable
because every `datalen = 0` rule has `random` set.)  Reads of
`rules->data` past its end (never exercised by the catalog, where
`datalen` equals the pattern length) are modelled by `getD`'s default. -/
def tileWrites (data : List ℕ) (L C : ℕ) : List (ℕ × ℕ) :=
  (List.range ((C + L - 1) / L)).flatMap fun i =>
    (List.range L).map fun dl => (i * L + dl, data.getD dl 0)

/-- Applying a chronological list of `(index, value)` byte stores to a
buffer; a later store to the same index wins. -/
def applyWrites (init : ℕ → ℕ) : List (ℕ × ℕ) → (ℕ → ℕ)
  | [] => init
  | w :: ws => applyWrites (Function.update init w.1 w.2) ws

/-!  ## Engine state  -/

/-- One observable I/O action of a pass: a `FillBlock` call on its
random or deterministic branch, or a `devfd.write` call of the given
byte count (recorded whether or not the stream honours it). -/
inductive Ev where
  | fillRandom : Ev
  | fillTile : Ev
  | write : ℕ → Ev
deriving DecidableEq

/-- A log line of `DiskWiper::main`, one constructor per `Log.Log`
call site, in source order. -/
inductive LogMsg where
  | sessionStart : LogMsg
  | policyName : String → LogMsg
  | passCount : ℕ → LogMsg
  | targetDevice : String → LogMsg
  | device : String → LogMsg
  | deviceSize : ℕ → LogMsg
  | invalidSize : LogMsg
  | sessionAborted : LogMsg
  | buildingBlock : ℕ → LogMsg
  | schedulingRandom : ℕ → LogMsg
  | stepStart : ℕ → LogMsg
  | stepDone : ℕ → LogMsg
  | sessionDone : LogMsg
  | separator : LogMsg
deriving DecidableEq

/-- The mutable state of a wipe session: the device bytes, the
`ofstream` put cursor and failure flag, the `owBlock` buffer, the
count of `GetRandomData` calls made so far, the count of
`devfd.write` calls made so far, the I/O trace and the report log. -/
structure WipeState where
  dev : ℕ → ℕ
  cursor : ℕ
  failed : Bool
  buf : ℕ → ℕ
  rndCalls : ℕ
  wIdx : ℕ
  trace : List Ev
  log : List LogMsg

/-- `ReportLog::Log` — appends one line to the report log. -/
def logMsg (m : LogMsg) (s : WipeState) : WipeState :=
  { s with log := s.log ++ [m] }

/-- `DiskWiper::FillBlock`, acting on the session state.  The
deterministic branch tiles the pattern over `owBlock`; the random
branch overwrites the first `blockSize` bytes of `owBlock` with the
bytes of the next `OS::GetRandomData` call (oracle `rnd`, indexed by
the number of calls made so far) and never touches `rule.data`. -/
def FillBlock (rnd : ℕ → ℕ → ℕ) (rule : OverWriteRule) (s : WipeState) : WipeState :=
  if !rule.random then
    { s with buf := applyWrites s.buf (tileWrites rule.data rule.datalen blockSize),
             trace := s.trace ++ [Ev.fillTile] }
  else
    { s with buf := fun i => if i < blockSize then rnd s.rndCalls i else s.buf i,
             rndCalls := s.rndCalls + 1,
             trace := s.trace ++ [Ev.fillRandom] }

/-- `devfd.write(owBlock, n)` — one `ofstream::write` call.  On a good
stream whose write succeeds, bytes `0..n` of `owBlock` land at the
cursor and the cursor advances; a failing write sets the sticky fail
state; a failed stream performs no device I/O at all.  The call itself
is always recorded in the trace. -/
def writeBytes (wfail : ℕ → Bool) (n : ℕ) (s : WipeState) : WipeState :=
  if s.failed then
    { s with trace := s.trace ++ [Ev.write n], wIdx := s.wIdx + 1 }
  else if wfail s.wIdx then
    { s with trace := s.trace ++ [Ev.write n], wIdx := s.wIdx + 1, failed := true }
  else
    { s with trace := s.trace ++ [Ev.write n], wIdx := s.wIdx + 1,
             dev := fun o => if s.cursor ≤ o ∧ o < s.cursor + n then s.buf (o - s.cursor)
                             else s.dev o,
             cursor := s.cursor + n }

/-- One iteration of either write loop of `DiskWiper::main`: an
optional re-fill (random rules only), then a write of `sz` bytes. -/
def writeCycle (rnd : ℕ → ℕ → ℕ) (wfail : ℕ → Bool) (rule : OverWriteRule)
    (sz : ℕ) (s : WipeState) : WipeState :=
  writeBytes wfail sz (if rule.random then FillBlock rnd rule s else s)

/-- `n` iterations of a write loop (the loop counters `cs`/`cb` are
not used in the loop bodies). -/
def writeLoop (rnd : ℕ → ℕ → ℕ) (wfail : ℕ → Bool) (rule : OverWriteRule)
    (sz n : ℕ) (s : WipeState) : WipeState :=
  (List.range n).foldl (fun s _ => writeCycle rnd wfail rule sz s) s

/-- One iteration of the pass loop of `DiskWiper::main`, for pass
index `step` over a target of `size` bytes:

    devfd.seekp(0);
    log building / scheduling;  log step start;
    FillBlock(owBlock, rules);
    for ( cs = 1; cs < size/blockSize; cs++ ) { refill if random; write blockSize }
    for ( cb = 0; cb < size%blockSize; cb++ ) { refill if random; write 1 }
    log step done;

`for (cs = 1; cs < size/blockSize; cs++)` runs `size/blockSize - 1`
times (natural subtraction: zero iterations when `size < 2*blockSize`).
`seekp` on a failed stream does not move the cursor. -/
def runPass (rnd : ℕ → ℕ → ℕ) (wfail : ℕ → Bool) (size step : ℕ)
    (rule : OverWriteRule) (s : WipeState) : WipeState :=
  let s := if s.failed then s else { s with cursor := 0 }
  let s := logMsg (if !rule.random then .buildingBlock step else .schedulingRandom step) s
  let s := logMsg (.stepStart step) s
  let s := FillBlock rnd rule s
  let s := writeLoop rnd wfail rule blockSize (size / blockSize - 1) s
  let s := writeLoop rnd wfail rule 1 (size % blockSize) s
  logMsg (.stepDone step) s

/-- The pass loop: `for (step = 0; step < policy.passes; step++)`,
fetching `policy.rules[step]` each iteration (in the catalog `passes`
never exceeds the table length, so `getD`'s default is never used). -/
def runPasses (rnd : ℕ → ℕ → ℕ) (wfail : ℕ → Bool) (pol : WipePolicy)
    (size : ℕ) (s : WipeState) : WipeState :=
  (List.range pol.passes).foldl
    (fun s step => runPass rnd wfail size step (pol.rules.getD step default) s) s

def E_SUCCESS : ℕ := 0
def E_FAILURE : ℕ := 1

/-- The session state at entry: device content `d0`, uninitialized
stack buffer `b0`, cursor at 0, good stream, no calls made, empty
trace and log. -/
def initState (d0 b0 : ℕ → ℕ) : WipeState :=
  { dev := d0, cursor := 0, failed := false, buf := b0,
    rndCalls := 0, wIdx := 0, trace := [], log := [] }

/-- `DiskWiper::main` after successful option parsing: the six header
log lines, the size check (logging and aborting with `E_FAILURE` when
the resolved size is 0 — before the device is opened for writing),
then the pass loop and the two trailing log lines.  Returns the exit
code and the final state. -/
def DiskWiper.main (rnd : ℕ → ℕ → ℕ) (wfail : ℕ → Bool) (pol : WipePolicy)
    (devName : String) (size : ℕ) (d0 b0 : ℕ → ℕ) : ℕ × WipeState :=
  let s := initState d0 b0
  let s := logMsg .sessionStart s
  let s := logMsg (.policyName pol.name) s
  let s := logMsg (.passCount pol.passes) s
  let s := logMsg (.targetDevice devName) s
  let s := logMsg (.device devName) s
  let s := logMsg (.deviceSize size) s
  if size = 0 then
    (E_FAILURE, logMsg .sessionAborted (logMsg .invalidSize s))
  else
    let s := runPasses rnd wfail pol size s
    (E_SUCCESS, logMsg .separator (logMsg .sessionDone s))

/-!  ## Concrete collaborators used to evaluate the engine  -/

/-- A random oracle returning zero bytes (any fixed oracle works for
evaluating control flow, which never inspects random bytes). -/
def rnd0 : ℕ → ℕ → ℕ := fun _ _ => 0

/-- A device that accepts every write. -/
def noFail : ℕ → Bool := fun _ => false

/-- A device on which every write call fails. -/
def allFail : ℕ → Bool := fun _ => true

/-- A device initially holding `0xFF` in every byte. -/
def initFF : ℕ → ℕ := fun _ => 0xFF

/-- The uninitialized stack buffer, taken as zeros; every pass fills
`owBlock` before its first write, so nothing depends on this. -/
def buf0 : ℕ → ℕ := fun _ => 0

/-!  ## The spec's log-event order (refinement comparison)  -/

/-- Following the spec's words, for comparison with the embedded
engine's log: "events occur in the fixed order: session-start,
policy-name, pass-count, target-identifier, target-size, then per
pass: pass-start, pass-done; finally session-done". -/
def specLogOrder (pol : WipePolicy) (devName : String) (size : ℕ) : List LogMsg :=
  [.sessionStart, .policyName pol.name, .passCount pol.passes,
   .targetDevice devName, .deviceSize size] ++
  (List.range pol.passes).flatMap (fun i => [.stepStart i, .stepDone i]) ++
  [.sessionDone]

/-!  ## Timestamp format of `ReportLog::Log`  -/

/-- A broken-down UTC time as produced by `std::gmtime`; `year` is the
full year (`tm_year + 1900`). -/
structure Tm where
  year : ℕ
  month : ℕ
  day : ℕ
  hour : ℕ
  minute : ℕ
  sec : ℕ

/-- The decimal digit character for `n mod 10`. -/
def digitChar (n : ℕ) : Char := Char.ofNat (48 + n % 10)

/-- A 2-digit zero-padded decimal field (`%m`, `%d`, `%H`, `%M`,
`%S`); agrees with `strftime` on the field ranges `gmtime`
guarantees (below 100). -/
def pad2 (n : ℕ) : List Char := [digitChar (n / 10), digitChar n]

/-- The 4-digit zero-padded `%Y` field; agrees with `strftime` for
years up to 9999. -/
def pad4 (n : ℕ) : List Char :=
  [digitChar (n / 1000), digitChar (n / 100), digitChar (n / 10), digitChar n]

/-- The timestamp `ReportLog::Log` prepends to every line:
`strftime("%Y-%m-%d-%H-%M-%SZ", gmtime(now))`. -/
def strftimeZulu (t : Tm) : List Char :=
  pad4 t.year ++ '-' :: pad2 t.month ++ '-' :: pad2 t.day ++ '-' ::
  pad2 t.hour ++ '-' :: pad2 t.minute ++ '-' :: pad2 t.sec ++ ['Z']

/-- Decimal digit test on a character. -/
def isDigitB (c : Char) : Bool := 48 ≤ c.toNat && c.toNat ≤ 57

/-- The `YYYY-MM-DD-HH-MM-SSZ` shape: 20 characters, decimal digits in
the date and time positions, dashes between fields, trailing `Z`. -/
def isoShapeB : List Char → Bool
  | [y1, y2, y3, y4, a1, m1, m2, a2, d1, d2, a3, h1, h2, a4, n1, n2, a5, s1, s2, z] =>
    isDigitB y1 && isDigitB y2 && isDigitB y3 && isDigitB y4 &&
    (a1 == '-') && isDigitB m1 && isDigitB m2 && (a2 == '-') &&
    isDigitB d1 && isDigitB d2 && (a3 == '-') && isDigitB h1 && isDigitB h2 &&
    (a4 == '-') && isDigitB n1 && isDigitB n2 && (a5 == '-') &&
    isDigitB s1 && isDigitB s2 && (z == 'Z')
  | _ => false

/-!  ## Lemmas: the tiling loop of `FillBlock`  -/

/-- Membership in the tile write list: the store to index `k` with
value `v` performed at outer iteration `i`, inner iteration `dl`. -/
theorem mem_tileWrites {data : List ℕ} {L C k v : ℕ} :
    (k, v) ∈ tileWrites data L C ↔
      ∃ i < (C + L - 1) / L, ∃ dl < L, k = i * L + dl ∧ v = data.getD dl 0 := by
  simp only [tileWrites, List.mem_flatMap, List.mem_map, List.mem_range, Prod.mk.injEq]
  constructor
  · rintro ⟨i, hi, dl, hdl, hk, hv⟩
    exact ⟨i, hi, dl, hdl, hk.symm, hv.symm⟩
  · rintro ⟨i, hi, dl, hdl, hk, hv⟩
    exact ⟨i, hi, dl, hdl, hk.symm, hv.symm⟩

/-- The indices stored by the tiling loop are exactly
`0, 1, …, ((C + L - 1) / L) * L - 1`, in order. -/
theorem tileWrites_map_fst (data : List ℕ) (L C : ℕ) :
    (tileWrites data L C).map Prod.fst = List.range ((C + L - 1) / L * L) := by
  unfold tileWrites
  generalize (C + L - 1) / L = T
  induction T with
  | zero => simp
  | succ T ih =>
    rw [List.range_succ, List.flatMap_append, List.map_append, ih, Nat.succ_mul,
      List.range_add]
    simp [List.map_map, Function.comp_def]

/-- Every stored index is below the full-tile span. -/
theorem tileWrites_bound {data : List ℕ} {L C k v : ℕ}
    (h : (k, v) ∈ tileWrites data L C) : k < (C + L - 1) / L * L := by
  have := tileWrites_map_fst data L C
  have hk : k ∈ (tileWrites data L C).map Prod.fst :=
    List.mem_map.mpr ⟨(k, v), h, rfl⟩
  rw [this, List.mem_range] at hk
  exact hk

/-- Every stored value is the pattern byte at the index's residue. -/
theorem tileWrites_value {data : List ℕ} {L C k v : ℕ}
    (h : (k, v) ∈ tileWrites data L C) : v = data.getD (k % L) 0 := by
  obtain ⟨i, _, dl, hdl, rfl, rfl⟩ := mem_tileWrites.mp h
  rw [Nat.add_comm, Nat.add_mul_mod_self_right, Nat.mod_eq_of_lt hdl]

/-- Every index below the full-tile span is stored, with the pattern
byte at its residue. -/
theorem tileWrites_cover {data : List ℕ} {L C : ℕ} (hL : 0 < L) {k : ℕ}
    (hk : k < (C + L - 1) / L * L) :
    (k, data.getD (k % L) 0) ∈ tileWrites data L C := by
  refine mem_tileWrites.mpr ⟨k / L, ?_, k % L, Nat.mod_lt _ hL, ?_, rfl⟩
  · exact (Nat.div_lt_iff_lt_mul hL).mpr hk
  · rw [Nat.mul_comm]
    exact (Nat.div_add_mod k L).symm

/-- The capacity never exceeds the full-tile span. -/
theorem le_tileSpan {L C : ℕ} (hL : 0 < L) : C ≤ (C + L - 1) / L * L := by
  rcases Nat.eq_zero_or_pos C with rfl | hC
  · simp
  · have h1 : C + L - 1 = (C - 1) + L := by omega
    rw [h1, Nat.add_div_right _ hL, Nat.succ_mul]
    have hdm : L * ((C - 1) / L) + (C - 1) % L = C - 1 := Nat.div_add_mod (C - 1) L
    have hmod : (C - 1) % L < L := Nat.mod_lt _ hL
    have hc : (C - 1) / L * L = L * ((C - 1) / L) := Nat.mul_comm _ _
    omega

/-- When `L` divides `C` the full-tile span is exactly `C`. -/
theorem tileSpan_of_dvd {L C : ℕ} (hL : 0 < L) (hdvd : L ∣ C) :
    (C + L - 1) / L * L = C := by
  obtain ⟨m, rfl⟩ := hdvd
  have h1 : L * m + L - 1 = L * m + (L - 1) := by omega
  rw [h1, Nat.mul_add_div hL, Nat.div_eq_of_lt (by omega), Nat.add_zero,
    Nat.mul_comm]

/-!  ## Lemmas: replaying byte stores  -/

/-- An index no store targets keeps its initial byte. -/
theorem applyWrites_notMem (init : ℕ → ℕ) (ws : List (ℕ × ℕ)) (k : ℕ)
    (h : k ∉ ws.map Prod.fst) : applyWrites init ws k = init k := by
  induction ws generalizing init with
  | nil => rfl
  | cons w ws ih =>
    simp only [List.map_cons, List.mem_cons, not_or] at h
    rw [applyWrites, ih _ h.2, Function.update_noteq h.1]

/-- With no index stored twice, a stored index ends up holding the
stored value. -/
theorem applyWrites_mem (init : ℕ → ℕ) (ws : List (ℕ × ℕ)) (k v : ℕ)
    (hnd : (ws.map Prod.fst).Nodup) (hm : (k, v) ∈ ws) :
    applyWrites init ws k = v := by
  induction ws generalizing init with
  | nil => simp at hm
  | cons w ws ih =>
    simp only [List.map_cons, List.nodup_cons] at hnd
    rcases List.mem_cons.mp hm with h | h
    · rw [applyWrites, applyWrites_notMem _ _ _ (h ▸ hnd.1 : (k, v).1 ∉ ws.map Prod.fst)]
      rw [← h, Function.update_same]
    · exact ih _ hnd.2 h

/-- The buffer after the deterministic branch of `FillBlock`: the
pattern tiled over the full-tile span, the initial bytes elsewhere. -/
theorem fillBuf_eq (data : List ℕ) (L C : ℕ) (init : ℕ → ℕ) (hL : 0 < L) (k : ℕ) :
    applyWrites init (tileWrites data L C) k =
      if k < (C + L - 1) / L * L then data.getD (k % L) 0 else init k := by
  have hnd : ((tileWrites data L C).map Prod.fst).Nodup := by
    rw [tileWrites_map_fst]; exact List.nodup_range _
  split_ifs with h
  · exact applyWrites_mem _ _ _ _ hnd (tileWrites_cover hL h)
  · refine applyWrites_notMem _ _ _ ?_
    rw [tileWrites_map_fst, List.mem_range]
    exact h

/-!  ## Lemmas: projections of the engine steps  -/

theorem FillBlock_trace (rnd : ℕ → ℕ → ℕ) (rule : OverWriteRule) (s : WipeState) :
    (FillBlock rnd rule s).trace =
      s.trace ++ [if rule.random then Ev.fillRandom else Ev.fillTile] := by
  cases hr : rule.random <;> simp [FillBlock, hr]

theorem FillBlock_log (rnd : ℕ → ℕ → ℕ) (rule : OverWriteRule) (s : WipeState) :
    (FillBlock rnd rule s).log = s.log := by
  cases hr : rule.random <;> simp [FillBlock, hr]

theorem FillBlock_rndCalls (rnd : ℕ → ℕ → ℕ) (rule : OverWriteRule) (s : WipeState) :
    (FillBlock rnd rule s).rndCalls =
      s.rndCalls + (if rule.random then 1 else 0) := by
  cases hr : rule.random <;> simp [FillBlock, hr]

theorem FillBlock_cursor (rnd : ℕ → ℕ → ℕ) (rule : OverWriteRule) (s : WipeState) :
    (FillBlock rnd rule s).cursor = s.cursor := by
  cases hr : rule.random <;> simp [FillBlock, hr]

theorem FillBlock_failed (rnd : ℕ → ℕ → ℕ) (rule : OverWriteRule) (s : WipeState) :
    (FillBlock rnd rule s).failed = s.failed := by
  cases hr : rule.random <;> simp [FillBlock, hr]

theorem FillBlock_wIdx (rnd : ℕ → ℕ → ℕ) (rule : OverWriteRule) (s : WipeState) :
    (FillBlock rnd rule s).wIdx = s.wIdx := by
  cases hr : rule.random <;> simp [FillBlock, hr]

theorem FillBlock_buf_fixed (rnd : ℕ → ℕ → ℕ) (rule : OverWriteRule) (s : WipeState)
    (h : rule.random = false) :
    (FillBlock rnd rule s).buf =
      applyWrites s.buf (tileWrites rule.data rule.datalen blockSize) := by
  simp [FillBlock, h]

/-!  ## Lemmas: the write loops of a pass  -/

theorem writeLoop_zero (rnd : ℕ → ℕ → ℕ) (wfail : ℕ → Bool) (rule : OverWriteRule)
    (sz : ℕ) (s : WipeState) : writeLoop rnd wfail rule sz 0 s = s := rfl

theorem writeLoop_succ (rnd : ℕ → ℕ → ℕ) (wfail : ℕ → Bool) (rule : OverWriteRule)
    (sz n : ℕ) (s : WipeState) :
    writeLoop rnd wfail rule sz (n + 1) s =
      writeCycle rnd wfail rule sz (writeLoop rnd wfail rule sz n s) := by
  unfold writeLoop
  rw [List.range_succ, List.foldl_append, List.foldl_cons, List.foldl_nil]

theorem writeBytes_trace (wfail : ℕ → Bool) (n : ℕ) (s : WipeState) :
    (writeBytes wfail n s).trace = s.trace ++ [Ev.write n] := by
  unfold writeBytes; split_ifs <;> rfl

theorem writeBytes_log (wfail : ℕ → Bool) (n : ℕ) (s : WipeState) :
    (writeBytes wfail n s).log = s.log := by
  unfold writeBytes; split_ifs <;> rfl

theorem writeBytes_rndCalls (wfail : ℕ → Bool) (n : ℕ) (s : WipeState) :
    (writeBytes wfail n s).rndCalls = s.rndCalls := by
  unfold writeBytes; split_ifs <;> rfl

theorem writeBytes_buf (wfail : ℕ → Bool) (n : ℕ) (s : WipeState) :
    (writeBytes wfail n s).buf = s.buf := by
  unfold writeBytes; split_ifs <;> rfl

theorem writeBytes_noFail (n : ℕ) (s : WipeState) (h : s.failed = false) :
    (writeBytes noFail n s).failed = false ∧
      (writeBytes noFail n s).cursor = s.cursor + n := by
  unfold writeBytes noFail; simp [h]

theorem writeCycle_trace (rnd : ℕ → ℕ → ℕ) (wfail : ℕ → Bool) (rule : OverWriteRule)
    (sz : ℕ) (s : WipeState) :
    (writeCycle rnd wfail rule sz s).trace =
      s.trace ++ ((if rule.random then [Ev.fillRandom] else []) ++ [Ev.write sz]) := by
  unfold writeCycle
  rw [writeBytes_trace]
  cases hr : rule.random
  · simp [hr]
  · simp [hr, FillBlock_trace]

theorem writeLoop_trace (rnd : ℕ → ℕ → ℕ) (wfail : ℕ → Bool) (rule : OverWriteRule)
    (sz n : ℕ) (s : WipeState) :
    (writeLoop rnd wfail rule sz n s).trace =
      s.trace ++ (List.replicate n
        ((if rule.random then [Ev.fillRandom] else []) ++ [Ev.write sz])).flatten := by
  induction n with
  | zero => simp [writeLoop_zero]
  | succ n ih =>
    rw [writeLoop_succ, writeCycle_trace, ih, List.replicate_succ',
      List.flatten_append]
    simp

theorem writeCycle_log (rnd : ℕ → ℕ → ℕ) (wfail : ℕ → Bool) (rule : OverWriteRule)
    (sz : ℕ) (s : WipeState) :
    (writeCycle rnd wfail rule sz s).log = s.log := by
  unfold writeCycle
  rw [writeBytes_log]
  cases hr : rule.random
  · simp [hr]
  · simp [hr, FillBlock_log]

theorem writeLoop_log (rnd : ℕ → ℕ → ℕ) (wfail : ℕ → Bool) (rule : OverWriteRule)
    (sz n : ℕ) (s : WipeState) :
    (writeLoop rnd wfail rule sz n s).log = s.log := by
  induction n with
  | zero => rfl
  | succ n ih => rw [writeLoop_succ, writeCycle_log, ih]

theorem writeCycle_rndCalls (rnd : ℕ → ℕ → ℕ) (wfail : ℕ → Bool)
    (rule : OverWriteRule) (sz : ℕ) (s : WipeState) :
    (writeCycle rnd wfail rule sz s).rndCalls =
      s.rndCalls + (if rule.random then 1 else 0) := by
  unfold writeCycle
  rw [writeBytes_rndCalls]
  cases hr : rule.random
  · simp [hr]
  · simp [hr, FillBlock_rndCalls]

theorem writeLoop_rndCalls (rnd : ℕ → ℕ → ℕ) (wfail : ℕ → Bool)
    (rule : OverWriteRule) (sz n : ℕ) (s : WipeState) :
    (writeLoop rnd wfail rule sz n s).rndCalls =
      s.rndCalls + n * (if rule.random then 1 else 0) := by
  induction n with
  | zero => simp [writeLoop_zero]
  | succ n ih =>
    rw [writeLoop_succ, writeCycle_rndCalls, ih, Nat.succ_mul, Nat.add_assoc]

theorem writeCycle_buf_fixed (rnd : ℕ → ℕ → ℕ) (wfail : ℕ → Bool)
    (rule : OverWriteRule) (sz : ℕ) (s : WipeState) (h : rule.random = false) :
    (writeCycle rnd wfail rule sz s).buf = s.buf := by
  unfold writeCycle
  rw [writeBytes_buf]
  simp [h]

theorem writeLoop_buf_fixed (rnd : ℕ → ℕ → ℕ) (wfail : ℕ → Bool)
    (rule : OverWriteRule) (sz n : ℕ) (s : WipeState) (h : rule.random = false) :
    (writeLoop rnd wfail rule sz n s).buf = s.buf := by
  induction n with
  | zero => rfl
  | succ n ih => rw [writeLoop_succ, writeCycle_buf_fixed _ _ _ _ _ h, ih]

theorem writeCycle_noFail (rnd : ℕ → ℕ → ℕ) (rule : OverWriteRule) (sz : ℕ)
    (s : WipeState) (h : s.failed = false) :
    (writeCycle rnd noFail rule sz s).failed = false ∧
      (writeCycle rnd noFail rule sz s).cursor = s.cursor + sz := by
  unfold writeCycle
  cases hr : rule.random
  · rw [if_neg (by simp [hr])]
    exact writeBytes_noFail sz s h
  · rw [if_pos (by simp [hr])]
    have h2 := writeBytes_noFail sz (FillBlock rnd rule s) (by rw [FillBlock_failed]; exact h)
    rw [FillBlock_cursor] at h2
    exact h2

theorem writeLoop_noFail (rnd : ℕ → ℕ → ℕ) (rule : OverWriteRule) (sz n : ℕ)
    (s : WipeState) (h : s.failed = false) :
    (writeLoop rnd noFail rule sz n s).failed = false ∧
      (writeLoop rnd noFail rule sz n s).cursor = s.cursor + n * sz := by
  induction n with
  | zero => exact ⟨h, by simp [writeLoop_zero]⟩
  | succ n ih =>
    obtain ⟨h1, h2⟩ := ih
    obtain ⟨h3, h4⟩ := writeCycle_noFail rnd rule sz _ h1
    rw [writeLoop_succ]
    exact ⟨h3, by rw [h4, h2, Nat.succ_mul, Nat.add_assoc]⟩

/-!  ## Lemmas: one pass and the pass loop  -/

theorem logMsg_trace (m : LogMsg) (s : WipeState) : (logMsg m s).trace = s.trace := rfl

theorem logMsg_log (m : LogMsg) (s : WipeState) : (logMsg m s).log = s.log ++ [m] := rfl

theorem logMsg_cursor (m : LogMsg) (s : WipeState) : (logMsg m s).cursor = s.cursor := rfl

theorem logMsg_failed (m : LogMsg) (s : WipeState) : (logMsg m s).failed = s.failed := rfl

theorem logMsg_buf (m : LogMsg) (s : WipeState) : (logMsg m s).buf = s.buf := rfl

theorem logMsg_rndCalls (m : LogMsg) (s : WipeState) : (logMsg m s).rndCalls = s.rndCalls := rfl

theorem runPass_trace (rnd : ℕ → ℕ → ℕ) (wfail : ℕ → Bool) (size step : ℕ)
    (rule : OverWriteRule) (s : WipeState) :
    (runPass rnd wfail size step rule s).trace =
      s.trace ++ ([if rule.random then Ev.fillRandom else Ev.fillTile] ++
        (List.replicate (size / blockSize - 1)
          ((if rule.random then [Ev.fillRandom] else []) ++ [Ev.write blockSize])).flatten ++
        (List.replicate (size % blockSize)
          ((if rule.random then [Ev.fillRandom] else []) ++ [Ev.write 1])).flatten) := by
  unfold runPass
  simp only [writeLoop_trace, FillBlock_trace, logMsg_trace]
  have hseek : (if s.failed = true then s else { s with cursor := 0 }).trace = s.trace := by
    split_ifs <;> rfl
  rw [hseek]
  simp [List.append_assoc]

theorem runPass_log (rnd : ℕ → ℕ → ℕ) (wfail : ℕ → Bool) (size step : ℕ)
    (rule : OverWriteRule) (s : WipeState) :
    (runPass rnd wfail size step rule s).log =
      s.log ++ [(if rule.random then LogMsg.schedulingRandom step
                 else LogMsg.buildingBlock step),
                LogMsg.stepStart step, LogMsg.stepDone step] := by
  unfold runPass
  simp only [writeLoop_log, FillBlock_log, logMsg_log]
  have hseek : (if s.failed = true then s else { s with cursor := 0 }).log = s.log := by
    split_ifs <;> rfl
  rw [hseek]
  cases hr : rule.random <;> simp [hr]

theorem runPass_rndCalls (rnd : ℕ → ℕ → ℕ) (wfail : ℕ → Bool) (size step : ℕ)
    (rule : OverWriteRule) (s : WipeState) :
    (runPass rnd wfail size step rule s).rndCalls =
      s.rndCalls + (if rule.random
        then 1 + ((size / blockSize - 1) + size % blockSize) else 0) := by
  unfold runPass
  simp only [writeLoop_rndCalls, FillBlock_rndCalls, logMsg_rndCalls]
  have hseek : (if s.failed = true then s else { s with cursor := 0 }).rndCalls = s.rndCalls := by
    split_ifs <;> rfl
  rw [hseek]
  cases hr : rule.random <;> simp [hr] <;> ring

theorem runPass_buf_fixed (rnd : ℕ → ℕ → ℕ) (wfail : ℕ → Bool) (size step : ℕ)
    (rule : OverWriteRule) (s : WipeState) (h : rule.random = false) :
    (runPass rnd wfail size step rule s).buf =
      applyWrites s.buf (tileWrites rule.data rule.datalen blockSize) := by
  have hseek : (if s.failed = true then s else { s with cursor := 0 }).buf = s.buf := by
    split_ifs <;> rfl
  unfold runPass
  simp only [writeLoop_buf_fixed, FillBlock_buf_fixed, logMsg_buf, h, hseek]

theorem runPass_noFail (rnd : ℕ → ℕ → ℕ) (size step : ℕ) (rule : OverWriteRule)
    (s : WipeState) (h : s.failed = false) :
    (runPass rnd noFail size step rule s).failed = false ∧
      (runPass rnd noFail size step rule s).cursor =
        (size / blockSize - 1) * blockSize + size % blockSize := by
  unfold runPass
  rw [if_neg (by simp [h])]
  have hA : (FillBlock rnd rule (logMsg (.stepStart step)
      (logMsg (if !rule.random then .buildingBlock step else .schedulingRandom step)
        { s with cursor := 0 }))).failed = false := by
    rw [FillBlock_failed, logMsg_failed, logMsg_failed]
    exact h
  obtain ⟨f1, c1⟩ := writeLoop_noFail rnd rule blockSize (size / blockSize - 1) _ hA
  obtain ⟨f2, c2⟩ := writeLoop_noFail rnd rule 1 (size % blockSize) _ f1
  constructor
  · simp only [logMsg_failed]
    exact f2
  · simp only [logMsg_cursor]
    rw [c2, c1, FillBlock_cursor, logMsg_cursor, logMsg_cursor]
    simp

theorem runPasses_log (rnd : ℕ → ℕ → ℕ) (wfail : ℕ → Bool) (pol : WipePolicy)
    (size : ℕ) (s : WipeState) :
    (runPasses rnd wfail pol size s).log =
      s.log ++ (List.range pol.passes).flatMap (fun i =>
        [(if (pol.rules.getD i default).random then LogMsg.schedulingRandom i
          else LogMsg.buildingBlock i),
         LogMsg.stepStart i, LogMsg.stepDone i]) := by
  unfold runPasses
  generalize pol.passes = n
  induction n with
  | zero => simp
  | succ n ih =>
    rw [List.range_succ, List.foldl_append, List.foldl_cons, List.foldl_nil,
      runPass_log, ih, List.flatMap_append]
    simp

/-!  ## Lemmas: timestamp shape  -/

theorem isDigitB_digitChar (n : ℕ) : isDigitB (digitChar n) = true := by
  have h : n % 10 < 10 := Nat.mod_lt _ (by norm_num)
  rw [digitChar, isDigitB]
  generalize hk : n % 10 = k at h ⊢
  interval_cases k <;> decide

/-- Every timestamp the logger produces has the
`YYYY-MM-DD-HH-MM-SSZ` shape. -/
theorem strftimeZulu_shape (t : Tm) : isoShapeB (strftimeZulu t) = true := by
  simp [strftimeZulu, pad4, pad2, isoShapeB, isDigitB_digitChar]

/-!  ## Claim C6  -/

/-- C6: every catalog policy stores a pass count equal to the length of
its rule table (`COUNT_PASSES`), and the non-Gutmann tables are exactly
the published sequences: Fast = one `0x00` pass; GOST P50739-95 =
`0x00` then random; DoD 5220.22-M = `0x00`, `0xFF`, random; German
VSITR = `0x00, 0xFF, 0x00, 0xFF, 0x00, 0xFF, 0xAA`. -/
theorem c6_catalog_pass_counts_and_tables :
    (wPolicies.all fun p => p.passes == p.rules.length) = true ∧
    r_Fast = [⟨[0x00], 1, false⟩] ∧
    r_Gost = [⟨[0x00], 1, false⟩, ⟨[], 0, true⟩] ∧
    r_UsDod5220_22_M = [⟨[0x00], 1, false⟩, ⟨[0xFF], 1, false⟩, ⟨[], 0, true⟩] ∧
    r_VSITR = [⟨[0x00], 1, false⟩, ⟨[0xFF], 1, false⟩, ⟨[0x00], 1, false⟩,
      ⟨[0xFF], 1, false⟩, ⟨[0x00], 1, false⟩, ⟨[0xFF], 1, false⟩,
      ⟨[0xAA], 1, false⟩] := by
  decide

/-!  ## Claim C2  -/

/-- C2: the Gutmann table does consist of 4 random rules, 27 fixed
rules and 4 random rules, but its 31st rule (index 30, the last of the
three final 3-byte rotations) holds the bytes `DB 92 49` instead of
the published `DB 6D B6` — the value the source's own binary comment
(`11011011 01101101 10110110`) spells out.  The published table is
therefore not reproduced bit-for-bit. -/
theorem c2_gutmann_rule31_transcription :
    r_Gutmann.length = 35 ∧
    ((r_Gutmann.take 4).all fun r => r.random) = true ∧
    (((r_Gutmann.drop 4).take 27).all fun r => !r.random) = true ∧
    ((r_Gutmann.drop 31).all fun r => r.random) = true ∧
    (r_Gutmann.getD 30 default).data = [0xDB, 0x92, 0x49] ∧
    (r_Gutmann.getD 30 default).data ≠ [0xDB, 0x6D, 0xB6] := by
  decide

/-!  ## Claim C7  -/

/-- C7: when the target size resolves to 0 the session logs the size,
the invalid-size message and the abort message, returns `E_FAILURE`,
performs no write call (the I/O trace is empty) and leaves the device
untouched. -/
theorem c7_zero_size_aborts (rnd : ℕ → ℕ → ℕ) (wfail : ℕ → Bool)
    (pol : WipePolicy) (devName : String) (d0 b0 : ℕ → ℕ) :
    (DiskWiper.main rnd wfail pol devName 0 d0 b0).1 = E_FAILURE ∧
    (DiskWiper.main rnd wfail pol devName 0 d0 b0).2.trace = [] ∧
    (DiskWiper.main rnd wfail pol devName 0 d0 b0).2.dev = d0 ∧
    (DiskWiper.main rnd wfail pol devName 0 d0 b0).2.log =
      [.sessionStart, .policyName pol.name, .passCount pol.passes,
       .targetDevice devName, .device devName, .deviceSize 0,
       .invalidSize, .sessionAborted] := by
  exact ⟨rfl, rfl, rfl, rfl⟩

/-!  ## Claim C5  -/

/-- C5 counterexample: with pattern length `L = 3` and capacity
`C = 4` (so `L` does not divide `C`), the tiling loop stores to index
4 — i.e. at the buffer capacity, past the last valid index — refuting
"the final partial tile is truncated to fit (no overrun past buffer
capacity)". -/
theorem c5_truncation_cex :
    (4, 2) ∈ tileWrites [1, 2, 3] 3 4 ∧ 4 % 3 ≠ 0 ∧ ¬ (4 : ℕ) < 4 := by
  decide

/-- C5 (amended): for a deterministic rule with pattern `P` of length
`L ≥ 1` and capacity `C`, the filled buffer satisfies
`buffer[k] = P[k mod L]` on `[0, C - C mod L)` and the following
`C mod L` bytes equal `P[0 .. C mod L)`; however the final partial
tile is not truncated: every store lands below `ceil(C/L)·L`; when
`L ∣ C` that bound is `C` (no overrun), and when `L ∤ C` the loop also
stores at index `C`, i.e. past the capacity. -/
theorem c5_fill_tiling (data : List ℕ) (L C : ℕ) (init : ℕ → ℕ) (hL : 0 < L) :
    (∀ k, k < C - C % L →
      applyWrites init (tileWrites data L C) k = data.getD (k % L) 0) ∧
    (∀ j, j < C % L →
      applyWrites init (tileWrites data L C) (C - C % L + j) = data.getD j 0) ∧
    (∀ kv ∈ tileWrites data L C, kv.1 < (C + L - 1) / L * L) ∧
    (C % L = 0 → ∀ kv ∈ tileWrites data L C, kv.1 < C) ∧
    (C % L ≠ 0 → (C, data.getD (C % L) 0) ∈ tileWrites data L C) := by
  have hspan := le_tileSpan (C := C) hL
  have hmod : C % L < L := Nat.mod_lt _ hL
  have hmodle : C % L ≤ C := Nat.mod_le _ _
  refine ⟨?_, ?_, ?_, ?_, ?_⟩
  · intro k hk
    rw [fillBuf_eq data L C init hL, if_pos (by omega)]
  · intro j hj
    rw [fillBuf_eq data L C init hL, if_pos (by omega)]
    have hC : C - C % L = L * (C / L) := by
      have := Nat.div_add_mod C L
      omega
    rw [hC, Nat.mul_add_mod, Nat.mod_eq_of_lt (by omega)]
  · rintro ⟨k, v⟩ hkv
    exact tileWrites_bound hkv
  · intro h0
    rintro ⟨k, v⟩ hkv
    have hb := tileWrites_bound hkv
    rwa [tileSpan_of_dvd hL (Nat.dvd_of_mod_eq_zero h0)] at hb
  · intro h0
    rcases Nat.lt_or_ge C ((C + L - 1) / L * L) with hlt | hge
    · exact tileWrites_cover hL hlt
    · exfalso
      have heq : C = (C + L - 1) / L * L := le_antisymm hspan hge
      rw [heq, Nat.mul_mod_left] at h0
      exact h0 rfl

/-- Concrete instance of `c5_fill_tiling` at `P = [1,2,3]`, `L = 3`,
`C = 4`. -/
theorem c5_fill_tiling_witness :
    (∀ k, k < 4 - 4 % 3 →
      applyWrites (fun _ => 9) (tileWrites [1, 2, 3] 3 4) k = [1, 2, 3].getD (k % 3) 0) ∧
    (∀ j, j < 4 % 3 →
      applyWrites (fun _ => 9) (tileWrites [1, 2, 3] 3 4) (4 - 4 % 3 + j) = [1, 2, 3].getD j 0) ∧
    (∀ kv ∈ tileWrites [1, 2, 3] 3 4, kv.1 < (4 + 3 - 1) / 3 * 3) ∧
    (4 % 3 = 0 → ∀ kv ∈ tileWrites [1, 2, 3] 3 4, kv.1 < 4) ∧
    (4 % 3 ≠ 0 → (4, [1, 2, 3].getD (4 % 3) 0) ∈ tileWrites [1, 2, 3] 3 4) :=
  c5_fill_tiling [1, 2, 3] 3 4 (fun _ => 9) (by decide)

/-!  ## Claim C10  -/

/-- C10: for every rule in the catalog, `FillBlock` stays inside the
98304-byte block buffer and never touches the unused field: a random
rule carries the null pattern and the random branch's behaviour does
not depend on `data`/`datalen` at all, while a deterministic rule has
a pattern length (1 or 3) dividing 98304, so every tiling store lands
at an index below 98304. -/
theorem c10_fillblock_in_bounds :
    ∀ rule ∈ wPolicies.flatMap WipePolicy.rules,
      (rule.random = true →
        rule.data = [] ∧
        ∀ (rnd : ℕ → ℕ → ℕ) (s : WipeState) (d : List ℕ) (n : ℕ),
          FillBlock rnd { data := d, datalen := n, random := true } s =
            FillBlock rnd rule s) ∧
      (rule.random = false →
        0 < rule.datalen ∧ rule.datalen ∣ blockSize ∧
        ∀ kv ∈ tileWrites rule.data rule.datalen blockSize, kv.1 < blockSize) := by
  have hfacts : ∀ rule ∈ wPolicies.flatMap WipePolicy.rules,
      (rule.random = true → rule.data = []) ∧
      (rule.random = false → 0 < rule.datalen ∧ rule.datalen ∣ blockSize) := by
    decide
  intro rule hr
  obtain ⟨h1, h2⟩ := hfacts rule hr
  refine ⟨fun hrand => ⟨h1 hrand, fun rnd s d n => ?_⟩, fun hfix => ?_⟩
  · simp [FillBlock, hrand]
  · obtain ⟨hpos, hdvd⟩ := h2 hfix
    refine ⟨hpos, hdvd, ?_⟩
    rintro ⟨k, v⟩ hkv
    have hb := tileWrites_bound hkv
    rwa [tileSpan_of_dvd hpos hdvd] at hb

/-- Concrete instance of `c10_fillblock_in_bounds` at the Fast rule. -/
theorem c10_fillblock_in_bounds_witness :
    ((⟨[0x00], 1, false⟩ : OverWriteRule) ∈ wPolicies.flatMap WipePolicy.rules) ∧
    (0 < (1 : ℕ) ∧ (1 : ℕ) ∣ blockSize ∧
      ∀ kv ∈ tileWrites [0x00] 1 blockSize, kv.1 < blockSize) :=
  ⟨by decide, (c10_fillblock_in_bounds ⟨[0x00], 1, false⟩ (by decide)).2 rfl⟩

/-!  ## Claim C1  -/

theorem flatten_replicate_singleton {α : Type} (n : ℕ) (x : α) :
    (List.replicate n [x]).flatten = List.replicate n x := by
  induction n with
  | zero => rfl
  | succ n ih => simp [List.replicate_succ, ih]

/-- The I/O trace of one deterministic pass, flattened. -/
theorem runPass_trace_fixed (rnd : ℕ → ℕ → ℕ) (wfail : ℕ → Bool) (size step : ℕ)
    (rule : OverWriteRule) (s : WipeState) (h : rule.random = false) :
    (runPass rnd wfail size step rule s).trace =
      s.trace ++ (Ev.fillTile ::
        (List.replicate (size / blockSize - 1) (Ev.write blockSize) ++
         List.replicate (size % blockSize) (Ev.write 1))) := by
  rw [runPass_trace]
  simp [h, flatten_replicate_singleton]

theorem count_fixed_trace_block (q r : ℕ) :
    (Ev.fillTile :: (List.replicate q (Ev.write blockSize) ++
        List.replicate r (Ev.write 1))).count (Ev.write blockSize) = q := by
  simp [List.count_cons, List.count_append, List.count_replicate, blockSize]

theorem count_fixed_trace_one (q r : ℕ) :
    (Ev.fillTile :: (List.replicate q (Ev.write blockSize) ++
        List.replicate r (Ev.write 1))).count (Ev.write 1) = r := by
  simp [List.count_cons, List.count_append, List.count_replicate, blockSize]

/-- C1: at `S = 100000`, `C = 98304` the pass executor performs 0
full-block writes — not `floor(S/C) = 1` — followed by 1696
single-byte writes, and the cursor ends at offset 1696, not 100000:
the loop `for (cs = 1; cs < size/blockSize; cs++)` runs
`floor(S/C) - 1` times, so one full block of every pass is never
written. -/
theorem c1_pass_write_counts :
    ((runPass rnd0 noFail 100000 0 ⟨[0x00], 1, false⟩ (initState initFF buf0)).trace.count
        (Ev.write blockSize) = 0) ∧
    ((runPass rnd0 noFail 100000 0 ⟨[0x00], 1, false⟩ (initState initFF buf0)).trace.count
        (Ev.write 1) = 1696) ∧
    (runPass rnd0 noFail 100000 0 ⟨[0x00], 1, false⟩ (initState initFF buf0)).cursor = 1696 := by
  have ht := runPass_trace_fixed rnd0 noFail 100000 0 ⟨[0x00], 1, false⟩
    (initState initFF buf0) rfl
  obtain ⟨hf, hc⟩ := runPass_noFail rnd0 100000 0 ⟨[0x00], 1, false⟩ (initState initFF buf0) rfl
  have hq : 100000 / blockSize - 1 = 0 := by norm_num [blockSize]
  have hrem : 100000 % blockSize = 1696 := by norm_num [blockSize]
  refine ⟨?_, ?_, ?_⟩
  · rw [ht]
    simp only [initState, List.nil_append]
    rw [count_fixed_trace_block, hq]
  · rw [ht]
    simp only [initState, List.nil_append]
    rw [count_fixed_trace_one, hrem]
  · rw [hc, hq, hrem]
    simp

/-!  ## Claim C4  -/

/-- C4: running the Fast policy (single `0x00` pass) over a target of
size `S = blockSize` performs no write at all — the block loop runs
`S/blockSize - 1 = 0` times and the remainder is 0 — so a device that
initially holds `0xFF` everywhere still reads `0xFF` at offset 0
instead of `0x00`; the pass's only I/O action is the buffer fill. -/
theorem c4_fast_policy_leaves_bytes :
    (DiskWiper.main rnd0 noFail FastPolicy "disk" blockSize initFF buf0).2.dev 0 = 0xFF ∧
    (DiskWiper.main rnd0 noFail FastPolicy "disk" blockSize initFF buf0).2.trace =
      [Ev.fillTile] ∧
    (0xFF : ℕ) ≠ 0x00 :=
  ⟨rfl, rfl, by norm_num⟩

/-!  ## Claim C3  -/

/-- C3: write failures are never checked: with every `devfd.write`
call failing, a DoD 5220.22-M session over a 5-byte target still
issues all 15 single-byte write calls across all three passes, logs
"session done" and returns `E_SUCCESS`; no abort happens and no
abort line is logged, even though the stream entered its sticky fail
state on the very first write (the device is left untouched). -/
theorem c3_write_failure_ignored :
    (DiskWiper.main rnd0 allFail DOD522022MPolicy "disk" 5 initFF buf0).1 = E_SUCCESS ∧
    (DiskWiper.main rnd0 allFail DOD522022MPolicy "disk" 5 initFF buf0).2.failed = true ∧
    (DiskWiper.main rnd0 allFail DOD522022MPolicy "disk" 5 initFF buf0).2.trace.count
      (Ev.write 1) = 15 ∧
    (DiskWiper.main rnd0 allFail DOD522022MPolicy "disk" 5 initFF buf0).2.dev 0 = 0xFF ∧
    (DiskWiper.main rnd0 allFail DOD522022MPolicy "disk" 5 initFF buf0).2.log =
      [.sessionStart, .policyName "US DOD 5220.22-M", .passCount 3,
       .targetDevice "disk", .device "disk", .deviceSize 5,
       .buildingBlock 0, .stepStart 0, .stepDone 0,
       .buildingBlock 1, .stepStart 1, .stepDone 1,
       .schedulingRandom 2, .stepStart 2, .stepDone 2,
       .sessionDone, .separator] ∧
    LogMsg.sessionAborted ∉
      (DiskWiper.main rnd0 allFail DOD522022MPolicy "disk" 5 initFF buf0).2.log := by
  decide

/-!  ## Claim C8  -/

/-- C8: within one pass, a random rule re-fills the buffer from the
random source immediately before every write call — the I/O trace is a
`fillRandom` then strictly alternating `fillRandom, write` pairs, with
`1 + (S/C - 1) + S mod C` distinct `GetRandomData` calls, one per
fill, so no random bytes are reused across write cycles — while a
deterministic rule fills once at pass start, makes no random call, and
the buffer after the pass is still exactly that single fill. -/
theorem c8_fill_discipline (rnd : ℕ → ℕ → ℕ) (wfail : ℕ → Bool) (size step : ℕ)
    (rule : OverWriteRule) (s : WipeState) :
    (rule.random = true →
      (runPass rnd wfail size step rule s).trace =
        s.trace ++ ([Ev.fillRandom] ++
          (List.replicate (size / blockSize - 1)
            [Ev.fillRandom, Ev.write blockSize]).flatten ++
          (List.replicate (size % blockSize) [Ev.fillRandom, Ev.write 1]).flatten) ∧
      (runPass rnd wfail size step rule s).rndCalls =
        s.rndCalls + (1 + ((size / blockSize - 1) + size % blockSize))) ∧
    (rule.random = false →
      (runPass rnd wfail size step rule s).trace =
        s.trace ++ ([Ev.fillTile] ++
          (List.replicate (size / blockSize - 1) [Ev.write blockSize]).flatten ++
          (List.replicate (size % blockSize) [Ev.write 1]).flatten) ∧
      (runPass rnd wfail size step rule s).rndCalls = s.rndCalls ∧
      (runPass rnd wfail size step rule s).buf =
        applyWrites s.buf (tileWrites rule.data rule.datalen blockSize)) := by
  constructor
  · intro h
    constructor
    · rw [runPass_trace]
      simp [h]
    · rw [runPass_rndCalls]
      simp [h]
  · intro h
    refine ⟨?_, ?_, ?_⟩
    · rw [runPass_trace]
      simp [h]
    · rw [runPass_rndCalls]
      simp [h]
    · exact runPass_buf_fixed _ _ _ _ _ _ h

/-- Concrete instances of `c8_fill_discipline`: the random rule's call
count over a 3-byte target (1 initial fill + 3 per-write fills) and
the deterministic rule's zero call count. -/
theorem c8_fill_discipline_witness :
    (runPass rnd0 noFail 3 0 ⟨[], 0, true⟩ (initState initFF buf0)).rndCalls =
      0 + (1 + ((3 / blockSize - 1) + 3 % blockSize)) ∧
    (runPass rnd0 noFail 3 0 ⟨[0x00], 1, false⟩ (initState initFF buf0)).rndCalls = 0 :=
  ⟨((c8_fill_discipline rnd0 noFail 3 0 ⟨[], 0, true⟩ (initState initFF buf0)).1 rfl).2,
   ((c8_fill_discipline rnd0 noFail 3 0 ⟨[0x00], 1, false⟩ (initState initFF buf0)).2 rfl).2.1⟩

/-!  ## Claim C9  -/

/-- C9 counterexample: for a Fast session over one byte the engine's
log is not the spec's claimed exact order — the engine emits a second
target-identifier line ("device:"), a per-pass block-preparation line
and a trailing separator that the claimed order does not contain. -/
theorem c9_log_order_cex :
    (DiskWiper.main rnd0 noFail FastPolicy "disk" 1 initFF buf0).2.log ≠
      specLogOrder FastPolicy "disk" 1 := by
  decide

/-- C9 (amended): for a non-zero target size the log is exactly:
session-start, policy-name, pass-count, target-identifier twice (the
"Target device:" and "device:" lines), target-size, then per pass a
block-preparation notice (building/scheduling), pass-start and
pass-done, and finally session-done followed by a separator line (for
size 0 the six header lines are followed by the invalid-size line and
session-aborted); and every line's timestamp (`strftime("%Y-%m-%d-%H-%M-%SZ", gmtime)`) has
the `YYYY-MM-DD-HH-MM-SSZ` shape. -/
theorem c9_log_order (rnd : ℕ → ℕ → ℕ) (wfail : ℕ → Bool) (pol : WipePolicy)
    (devName : String) (size : ℕ) (d0 b0 : ℕ → ℕ) (h : size ≠ 0) :
    (DiskWiper.main rnd wfail pol devName size d0 b0).2.log =
      ([.sessionStart, .policyName pol.name, .passCount pol.passes,
        .targetDevice devName, .device devName, .deviceSize size] ++
       (List.range pol.passes).flatMap (fun i =>
         [(if (pol.rules.getD i default).random then LogMsg.schedulingRandom i
           else LogMsg.buildingBlock i),
          LogMsg.stepStart i, LogMsg.stepDone i]) ++
       [.sessionDone, .separator]) ∧
    (DiskWiper.main rnd wfail pol devName 0 d0 b0).2.log =
      [.sessionStart, .policyName pol.name, .passCount pol.passes,
       .targetDevice devName, .device devName, .deviceSize 0,
       .invalidSize, .sessionAborted] ∧
    (∀ t : Tm, isoShapeB (strftimeZulu t) = true) := by
  refine ⟨?_, rfl, strftimeZulu_shape⟩
  simp only [DiskWiper.main]
  rw [if_neg h]
  simp only [runPasses_log, logMsg_log]
  simp [initState, List.append_assoc]

/-- Concrete instance of `c9_log_order`: a Fast session over one
byte. -/
theorem c9_log_order_witness :
    (DiskWiper.main rnd0 noFail FastPolicy "disk" 1 initFF buf0).2.log =
      ([.sessionStart, .policyName FastPolicy.name, .passCount FastPolicy.passes,
        .targetDevice "disk", .device "disk", .deviceSize 1] ++
       (List.range FastPolicy.passes).flatMap (fun i =>
         [(if (FastPolicy.rules.getD i default).random then LogMsg.schedulingRandom i
           else LogMsg.buildingBlock i),
          LogMsg.stepStart i, LogMsg.stepDone i]) ++
       [.sessionDone, .separator]) ∧
    (DiskWiper.main rnd0 noFail FastPolicy "disk" 0 initFF buf0).2.log =
      [.sessionStart, .policyName FastPolicy.name, .passCount FastPolicy.passes,
       .targetDevice "disk", .device "disk", .deviceSize 0,
       .invalidSize, .sessionAborted] ∧
    (∀ t : Tm, isoShapeB (strftimeZulu t) = true) :=
  c9_log_order rnd0 noFail FastPolicy "disk" 1 initFF buf0 (by decide)
